import Mathlib

/-!
Verification of the job execution engine of gallery-dl
(`src/gallery_dl/job.py`), shallowly embedded in Lean 4.

The embedding models the control flow of `Job.run`, `DownloadJob.handle_url`,
`DownloadJob.handle_skip`, `DownloadJob.download` and
`DownloadJob.handle_queue`.  External collaborators (path formatting, the
downloader byte transfer, the archive store, hooks, config lookups) are
abstracted as boolean/functional oracles in an environment record, and their
invocations are recorded in an event trace, so that statements such as
"no downloader is invoked" or "archive.add is not called" become statements
about the trace.
-/

namespace GalleryDL

abbrev Url := String

/-- Exceptions that can escape the message loop of `Job.run`
(`job.py` lines 103-130).  `exception.py` itself is not part of the sources
under verification, but `run` only inspects the class of the exception, the
`message`/`code` attributes of `GalleryDLException`s and the `errno` of an
`OSError`, so those are the only data modelled. -/
inductive Exc
  | stopExtraction (message : Option String) (code : Nat)
  | terminateExtraction
  | restartExtraction
  | galleryDLException (name : String) (code : Nat)
  | osError (enospc : Bool)
  | exceptionOther (name : String)
  | systemExit
  | baseOther
deriving DecidableEq, Repr

/-- The exception class stored in `DownloadJob._skipexc` by `initialize`
(`job.py` lines 467-479): `"abort"` maps to `StopExtraction`, `"terminate"`
to `TerminateExtraction`, `"exit"` to `sys.exit`. -/
inductive SkipExcKind
  | stop
  | terminate
  | exitProc
deriving DecidableEq, Repr

/-- Modelled from the spec: the default status code of a `StopExtraction`
raised with no arguments (as in `handle_skip`).  `gallery_dl/exception.py`
is not under `src/`; the spec only says a soft stop "contributes a status
code", and no claim depends on the concrete value. -/
def stopExtractionDefaultCode : Nat := 0

/-- The exception object raised by `handle_skip` (`job.py` line 399). -/
def SkipExcKind.raise : SkipExcKind → Exc
  | .stop => .stopExtraction none stopExtractionDefaultCode
  | .terminate => .terminateExtraction
  | .exitProc => .systemExit

/-- Python truthiness of the `message` attribute used by
`if exc.message:` (`job.py` line 107). -/
def msgTruthy : Option String → Bool
  | none => false
  | some s => !s.isEmpty

/-- Observable effects of one `handle_url`/`run` invocation: calls into the
path-format object, the output object, the archive, the downloader, hooks,
and the individual logging sites of `job.py`. -/
inductive Event
  | setFilename
  | prepareHook
  | fixExtension
  | buildPath
  | outSkip
  | skipHook
  | outSuccess
  | fileHook
  | afterHook
  | pathFinalize
  | archiveAdd
  | sleepDownload
  | dlAttempt (url : Url)
  | removeTemp
  | logFallback
  | logFailed
  | logWarnDownloader
  | logNotSupported
  | writeUnsupported (url : Url)
  | logStopMessage
  | logGdlError
  | logOSError
  | logUnexpected
  | logDebugTrace
  | logNoResults
  | finalizeHandlers
  | finalizeExtractor
deriving DecidableEq, Repr

/-- Result of one call into `downloader.download` for a given URL:
bytes written, failure without exception, or an `OSError` with or without
`errno == ENOSPC`. -/
inductive DlRes
  | ok
  | fail
  | osErr (enospc : Bool)
deriving DecidableEq, Repr

/-- The oracles a `DownloadJob` consults during `handle_url`: truthiness of
the attributes set up by `__init__`/`initialize`, results of the external
collaborators, and the skip policy.  Each field corresponds to one read in
`job.py`. -/
structure Env where
  /-- `"prepare" in hooks` (line 250) -/
  hasPrepareHook : Bool
  /-- `"file" in hooks` (line 295) -/
  hasFileHook : Bool
  /-- `"after" in hooks` (line 305) -/
  hasAfterHook : Bool
  /-- `"skip" in self.hooks` (line 393) -/
  hasSkipHook : Bool
  /-- `self.archive` is not `None` (lines 254, 263, 289, 303) -/
  archive : Bool
  /-- result of `archive.check(kwdict)` (line 254) -/
  archiveCheck : Bool
  /-- truthiness of `pathfmt.extension` (line 259) -/
  pathExtension : Bool
  /-- truthiness of `self.metadata_http` (line 259) -/
  metadataHttp : Bool
  /-- result of `pathfmt.exists()` (line 262) -/
  pathExists : Bool
  /-- truthiness of `self.sleep` (line 268) -/
  sleepCfg : Bool
  /-- truthiness of `self.fallback` (line 275) -/
  fallback : Bool
  /-- truthiness of `pathfmt.temppath` after a successful download (line 288) -/
  temppath : Bool
  /-- `get_downloader(scheme)` returns an instance (line 404) -/
  hasDownloader : Url → Bool
  /-- outcome of `downloader.download(url, self.pathfmt)` (line 406) -/
  dlResult : Url → DlRes
  /-- `self.ulog` is configured (line 221) -/
  ulog : Bool
  /-- `self._skipexc` (lines 396, 468, 473-478) -/
  skipExcCfg : Option SkipExcKind
  /-- `self._skipmax = text.parse_int(smax)` (line 479) -/
  skipMax : Int

/-- The mutable `DownloadJob` attributes the verified claims track:
`self.status` and `self._skipcnt`. -/
structure JS where
  status : Nat
  skipcnt : Nat
deriving DecidableEq, Repr

/-- Result of one handler invocation: updated job state, emitted event
trace, and the exception propagating out of it, if any. -/
structure StepResult where
  st : JS
  trace : List Event
  exc : Option Exc
deriving Repr

/-- `DownloadJob.handle_skip` (`job.py` lines 390-399): report the skip,
fire "skip" hooks, and under a skip policy with an exception class bump the
consecutive-skip counter and raise once it reaches the threshold. -/
def DownloadJob.handle_skip (env : Env) (st : JS) : StepResult :=
  let tr := Event.outSkip :: (if env.hasSkipHook then [Event.skipHook] else [])
  match env.skipExcCfg with
  | none => ⟨st, tr, none⟩
  | some k =>
    let st' : JS := { st with skipcnt := st.skipcnt + 1 }
    if (st'.skipcnt : Int) ≥ env.skipMax then
      ⟨st', tr, some k.raise⟩
    else
      ⟨st', tr, none⟩

/-- Result of `DownloadJob.download`: the boolean the caller sees, the
events emitted, and a re-raised exception if any. -/
structure DlOutcome where
  ok : Bool
  trace : List Event
  exc : Option Exc
deriving Repr

/-- `DownloadJob.download` (`job.py` lines 401-413): dispatch on the URL
scheme; an `OSError` with `errno == ENOSPC` is re-raised, any other
`OSError` is logged as a warning and reported as failure; a URL without a
supported downloader is logged and written to the unsupported sink. -/
def DownloadJob.download (env : Env) (url : Url) : DlOutcome :=
  if env.hasDownloader url then
    match env.dlResult url with
    | .ok => ⟨true, [Event.dlAttempt url], none⟩
    | .fail => ⟨false, [Event.dlAttempt url], none⟩
    | .osErr true => ⟨false, [Event.dlAttempt url], some (Exc.osError true)⟩
    | .osErr false => ⟨false, [Event.dlAttempt url, Event.logWarnDownloader], none⟩
  else
    ⟨false, Event.logNotSupported ::
      (if env.ulog then [Event.writeUnsupported url] else []), none⟩

/-- The metadata fields of the `kwdict` argument that `handle_url` itself
consults: only `kwdict.get("_fallback", ())` (`job.py` line 275). -/
structure Kwdict where
  fallback : List Url
deriving Repr

/-- The fallback loop of `handle_url` (`job.py` lines 276-280): for each
fallback URL, remove the partial temp file, log, and retry the download;
stop at the first success. -/
def DownloadJob.tryFallback (env : Env) : List Url → DlOutcome
  | [] => ⟨false, [], none⟩
  | u :: rest =>
    let d := DownloadJob.download env u
    let pre := Event.removeTemp :: Event.logFallback :: d.trace
    match d.exc with
    | some e => ⟨false, pre, some e⟩
    | none =>
      if d.ok then ⟨true, pre, none⟩
      else
        let r := DownloadJob.tryFallback env rest
        ⟨r.ok, pre ++ r.trace, r.exc⟩

/-- The tail of `handle_url` after a download attempt succeeded
(`job.py` lines 288-307): an empty temp path means nothing was written, so
record in the archive and count a skip; otherwise fire "file" hooks, move
the file in place, report success, reset the consecutive-skip counter,
record in the archive and fire "after" hooks. -/
def DownloadJob.handle_url_done (env : Env) (st : JS) (tr : List Event) : StepResult :=
  if !env.temppath then
    let tr := tr ++ (if env.archive then [Event.archiveAdd] else [])
    let r := DownloadJob.handle_skip env st
    ⟨r.st, tr ++ r.trace, r.exc⟩
  else
    let tr := tr ++ (if env.hasFileHook then [Event.fileHook] else [])
      ++ [Event.pathFinalize, Event.outSuccess]
    let st : JS := { st with skipcnt := 0 }
    let tr := tr ++ (if env.archive then [Event.archiveAdd] else [])
    let tr := tr ++ (if env.hasAfterHook then [Event.afterHook] else [])
    ⟨st, tr, none⟩

/-- `DownloadJob.handle_url` (`job.py` lines 241-307): set the filename,
fire "prepare" hooks, short-circuit on an archive hit or an existing file,
optionally sleep, then download with fallbacks; on total failure set status
bit 4 and log, without touching skip counting or the archive. -/
def DownloadJob.handle_url (env : Env) (st : JS) (url : Url) (kw : Kwdict) : StepResult :=
  let tr0 := Event.setFilename :: (if env.hasPrepareHook then [Event.prepareHook] else [])
  if env.archive && env.archiveCheck then
    let r := DownloadJob.handle_skip env st
    ⟨r.st, tr0 ++ Event.fixExtension :: r.trace, r.exc⟩
  else
    let tr1 := tr0 ++ (if env.pathExtension && !env.metadataHttp then [Event.buildPath] else [])
    if env.pathExtension && !env.metadataHttp && env.pathExists then
      let tr2 := tr1 ++ (if env.archive then [Event.archiveAdd] else [])
      let r := DownloadJob.handle_skip env st
      ⟨r.st, tr2 ++ r.trace, r.exc⟩
    else
      let tr2 := tr1 ++ (if env.sleepCfg then [Event.sleepDownload] else [])
      let d := DownloadJob.download env url
      let tr3 := tr2 ++ d.trace
      match d.exc with
      | some e => ⟨st, tr3, some e⟩
      | none =>
        if d.ok then
          DownloadJob.handle_url_done env st tr3
        else
          let fb := if env.fallback then kw.fallback else []
          let f := DownloadJob.tryFallback env fb
          let tr4 := tr3 ++ f.trace
          match f.exc with
          | some e => ⟨st, tr4, some e⟩
          | none =>
            if f.ok then
              DownloadJob.handle_url_done env st tr4
            else
              ⟨{ st with status := st.status ||| 4 }, tr4 ++ [Event.logFailed], none⟩

/-- Result of `Job.run`: the value of `self.status` afterwards, the events
emitted by the exception handlers and the `finally` block, and the
exception re-raised to the caller, if any (`none` means `run` returned
`self.status`). -/
structure RunOutcome where
  status : Nat
  trace : List Event
  raised : Option Exc
deriving Repr

/-- `Job.run` (`job.py` lines 94-138), parameterised by the outcome of the
message loop: `status0` is `self.status` when the loop ends (message
handlers may already have set bits), `loopExc` the exception escaping the
loop if any, `sawMessage` whether at least one message was produced.
The `finally` block (`handle_finalize` and `extractor.finalize`) always
runs. -/
def Job.run (status0 : Nat) (loopExc : Option Exc) (sawMessage : Bool) : RunOutcome :=
  let fin := [Event.finalizeHandlers, Event.finalizeExtractor]
  match loopExc with
  | none =>
    ⟨status0, (if sawMessage then [] else [Event.logNoResults]) ++ fin, none⟩
  | some (.stopExtraction msg code) =>
    ⟨status0 ||| code, (if msgTruthy msg then [Event.logStopMessage] else []) ++ fin, none⟩
  | some .terminateExtraction =>
    ⟨status0, fin, some .terminateExtraction⟩
  | some .restartExtraction =>
    ⟨status0, fin, some .restartExtraction⟩
  | some (.galleryDLException _ code) =>
    ⟨status0 ||| code, Event.logGdlError :: fin, none⟩
  | some (.osError _) =>
    ⟨status0 ||| 128, Event.logOSError :: Event.logDebugTrace :: fin, none⟩
  | some (.exceptionOther _) =>
    ⟨status0 ||| 1, Event.logUnexpected :: Event.logDebugTrace :: fin, none⟩
  | some .systemExit =>
    ⟨status0 ||| 1, fin, some .systemExit⟩
  | some .baseOther =>
    ⟨status0 ||| 1, fin, some .baseOther⟩

/-! ### `handle_queue`: dedup and extractor resolution (`job.py` lines 322-336, 371-372) -/

/-- An extractor instance, identified abstractly. -/
abbrev Extr := String

/-- A reference to a visited-URL set object in the Python heap. -/
abbrev VisRef := Nat

/-- `DownloadJob.__init__` (`job.py` line 237):
`self.visited = parent.visited if parent else set()` — a child aliases its
parent's visited set, a root allocates a fresh one. -/
def DownloadJob.initVisited (parent : Option VisRef) (fresh : VisRef) : VisRef :=
  match parent with
  | some r => r
  | none => fresh

/-- The visited reference of a depth-`n` descendant of a root whose visited
reference is `root`, where `fresh d` is the set a depth-`d` job would
allocate if it were a root. -/
def descendantVisited (root : VisRef) (fresh : Nat → VisRef) : Nat → VisRef
  | 0 => root
  | n + 1 => DownloadJob.initVisited (some (descendantVisited root fresh n)) (fresh n)

/-- Oracles consulted by the resolution part of `handle_queue`. -/
structure QEnv where
  /-- `extractor.find(url)` (line 330) -/
  find : Url → Option Extr
  /-- the whitelist/blacklist category filter `self._extractor_filter`
  (lines 332-335, 551-563) -/
  filterAllows : Extr → Bool
  /-- `self.ulog` is configured (line 221) -/
  ulog : Bool

/-- Observable outcomes of one `handle_queue` dedup/resolution step. -/
inductive QEvent
  | spawn (url : Url) (extr : Extr)
  | unsupported (url : Url)
deriving DecidableEq, Repr

/-- `kwdict.get("_extractor")` followed by `cls.from_url(url)`
(`job.py` lines 327-328): `none` means no hint key was present,
`some r` means the hint class resolved to `r` (which may itself be `none`,
as `from_url` can return `None`). -/
abbrev ExtrHint := Option (Option Extr)

/-- The extractor chosen by `handle_queue` (`job.py` lines 327-335): an
explicit `_extractor` hint bypasses both registry lookup and the
whitelist/blacklist filter; otherwise the registry result is kept only if
the filter allows it. -/
def resolveExtractor (env : QEnv) (url : Url) (hint : ExtrHint) : Option Extr :=
  match hint with
  | some r => r
  | none =>
    match env.find url with
    | some e => if env.filterAllows e then some e else none
    | none => none

/-- The dedup and resolution part of `DownloadJob.handle_queue`
(`job.py` lines 322-336 and 371-372): a URL already in the shared visited
set returns immediately; otherwise the URL is added *before* resolution is
attempted, and an unresolved URL goes to the unsupported sink.  Running the
spawned child is abstracted to a `spawn` event. -/
def DownloadJob.handle_queue_resolve (env : QEnv) (visited : List Url)
    (url : Url) (hint : ExtrHint) : List Url × List QEvent :=
  if url ∈ visited then
    (visited, [])
  else
    let visited := url :: visited
    match resolveExtractor env url hint with
    | some e => (visited, [QEvent.spawn url e])
    | none => (visited, if env.ulog then [QEvent.unsupported url] else [])

/-- A sequence of `Queue` messages dispatched anywhere in the job tree,
threaded through the single shared visited set (all jobs of one tree alias
the same set, by `DownloadJob.initVisited`). -/
def processQueue (env : QEnv) : List (Url × ExtrHint) → List Url → List Url × List QEvent
  | [], vis => (vis, [])
  | (u, h) :: rest, vis =>
    let r := DownloadJob.handle_queue_resolve env vis u h
    let r2 := processQueue env rest r.1
    (r2.1, r.2 ++ r2.2)

/-- Does this event spawn a child for `u`? -/
def QEvent.isSpawnFor (u : Url) : QEvent → Bool
  | .spawn v _ => v == u
  | _ => false

/-- Does this event write `u` to the unsupported sink? -/
def QEvent.isUnsupportedFor (u : Url) : QEvent → Bool
  | .unsupported v => v == u
  | _ => false

/-! ### `handle_queue`: the restart retry loop (`job.py` lines 359-369) -/

/-- The behaviour of one attempt of the child Job's `run`, abstracting the
child's message loop: `bits` is OR-ed into the child's status, the child's
skip counter is mapped through `cntAfter`, and the attempt ends by raising
`RestartExtraction` iff `restart` is set. -/
structure ChildRunSpec where
  bits : Nat
  cntAfter : Nat → Nat
  restart : Bool

/-- Parent/child state tracked across the retry loop: the parent's
`status` and `_skipcnt`, and the child Job object's `status` and
`_skipcnt` (the child object persists across restarts). -/
structure QState where
  pStatus : Nat
  pCnt : Nat
  cStatus : Nat
  cCnt : Nat
deriving DecidableEq, Repr

/-- The `while True` retry loop of `handle_queue` (`job.py` lines 359-369),
started at attempt index `i` with `fuel` remaining iterations.  Each
iteration seeds the child's counter from the parent's when `parent-skip` is
set, runs the child (whose status accumulates across attempts, since the
same Job object is reused), and on normal return ORs the child's returned
status into the parent's and writes the child's counter back when
`parent-skip` is set; a `RestartExtraction` just loops. -/
def DownloadJob.queueLoop (ps : Bool) (spec : Nat → ChildRunSpec) :
    Nat → Nat → QState → Option QState
  | 0, _, _ => none
  | fuel + 1, i, q =>
    let cCnt0 := if ps then q.pCnt else q.cCnt
    let cStatus := q.cStatus ||| (spec i).bits
    let cCnt := (spec i).cntAfter cCnt0
    if (spec i).restart then
      DownloadJob.queueLoop ps spec fuel (i + 1)
        { q with cStatus := cStatus, cCnt := cCnt }
    else
      some { pStatus := q.pStatus ||| cStatus
           , pCnt := if ps then cCnt else q.pCnt
           , cStatus := cStatus
           , cCnt := cCnt }

/-- `handle_queue`'s construction of the child (`job.py` lines 338, 33,
239: a fresh Job starts with `status = 0` and `_skipcnt = 0`) followed by
the retry loop. -/
def DownloadJob.runChildLoop (ps : Bool) (spec : Nat → ChildRunSpec)
    (fuel : Nat) (pStatus pCnt : Nat) : Option QState :=
  DownloadJob.queueLoop ps spec fuel 0 ⟨pStatus, pCnt, 0, 0⟩

/-- The retry loop as the claim reads it: the child is re-constructed from
scratch on every restart, so each attempt starts from `status = 0`,
`_skipcnt = 0`, and only the completing attempt's own status reaches the
parent.  This follows the claim's words, for comparison with
`DownloadJob.queueLoop`, which follows the source. -/
def queueLoopReconstruct (ps : Bool) (spec : Nat → ChildRunSpec) :
    Nat → Nat → QState → Option QState
  | 0, _, _ => none
  | fuel + 1, i, q =>
    let q := { q with cStatus := 0, cCnt := 0 }
    let cCnt0 := if ps then q.pCnt else q.cCnt
    let cStatus := q.cStatus ||| (spec i).bits
    let cCnt := (spec i).cntAfter cCnt0
    if (spec i).restart then
      queueLoopReconstruct ps spec fuel (i + 1)
        { q with cStatus := cStatus, cCnt := cCnt }
    else
      some { pStatus := q.pStatus ||| cStatus
           , pCnt := if ps then cCnt else q.pCnt
           , cStatus := cStatus
           , cCnt := cCnt }

/-- OR of `(spec i).bits ||| ... ||| (spec (i+k)).bits`. -/
def orBitsFrom (spec : Nat → ChildRunSpec) (i : Nat) : Nat → Nat
  | 0 => (spec i).bits
  | k + 1 => (spec i).bits ||| orBitsFrom spec (i + 1) k

/-- The child's skip counter after attempts `i, ..., i+k` chained from `c`
(the `parent-skip`-disabled evolution). -/
def cntChain (spec : Nat → ChildRunSpec) (i : Nat) : Nat → Nat → Nat
  | 0, c => (spec i).cntAfter c
  | k + 1, c => cntChain spec (i + 1) k ((spec i).cntAfter c)

/-! ### Status aggregation across a job tree -/

/-- A job tree, as produced by the message loop: a job handles a sequence
of items, each either one of its own `Url` items (contributing `bits` to
`self.status`, as in `self.status |= 4`, `job.py` line 283) or a `Queue`
child job run to completion (`self.status |= job.run()`, lines 363/366). -/
inductive JobT
  | nil
  | own (bits : Nat) (rest : JobT)
  | child (c : JobT) (rest : JobT)

/-- The status returned by `run` for a job tree, starting from accumulated
status `s`: own items OR their bits in; a child is run from status `0`
(`Job.__init__`, line 33) and its returned status is OR-ed in. -/
def runT : JobT → Nat → Nat
  | .nil, s => s
  | .own b r, s => runT r (s ||| b)
  | .child c r, s => runT r (s ||| runT c 0)

/-- All proper descendant jobs of a job tree. -/
def subJobs : JobT → List JobT
  | .nil => []
  | .own _ r => subJobs r
  | .child c r => (c :: subJobs c) ++ subJobs r

/-! ### Iterated consecutive skips -/

/-- `n` consecutive skipped items: each one calls `handle_skip`, and a
raised skip exception propagates, so no further skips occur after it. -/
def skipIter (env : Env) (st : JS) : Nat → StepResult
  | 0 => ⟨st, [], none⟩
  | n + 1 =>
    let r := skipIter env st n
    match r.exc with
    | some _ => r
    | none =>
      let r2 := DownloadJob.handle_skip env r.st
      ⟨r2.st, r.trace ++ r2.trace, r2.exc⟩

/-! ### Concrete environments for closed instances -/

/-- A baseline environment: no hooks, no archive, no sleep, no skip
policy, fallback enabled, no downloader for any scheme.  Concrete
instances below override individual fields. -/
def envBase : Env where
  hasPrepareHook := false
  hasFileHook := false
  hasAfterHook := false
  hasSkipHook := false
  archive := false
  archiveCheck := false
  pathExtension := false
  metadataHttp := false
  pathExists := false
  sleepCfg := false
  fallback := true
  temppath := true
  hasDownloader := fun _ => false
  dlResult := fun _ => DlRes.fail
  ulog := false
  skipExcCfg := none
  skipMax := 0

/-- Environment whose downloader raises `OSError(ENOSPC)` on every URL. -/
def envEnospc : Env :=
  { envBase with hasDownloader := fun _ => true, dlResult := fun _ => DlRes.osErr true }

/-- Environment with an archive that already contains every key. -/
def envArchiveHit : Env :=
  { envBase with archive := true, archiveCheck := true }

/-- Environment where the target file exists on disk but the filename
extension is still unknown (`pathfmt.extension` falsy), with an archive
configured that does not contain the key, and a downloader that
succeeds. -/
def envExistsNoExt : Env :=
  { envBase with
    archive := true
    pathExists := true
    hasDownloader := fun _ => true
    dlResult := fun _ => DlRes.ok }

/-- Environment where the target file exists on disk and the extension is
known, with an archive configured that does not contain the key. -/
def envExistsExt : Env :=
  { envBase with archive := true, pathExtension := true, pathExists := true }

/-- Number of `spawn` events for `u` in a `handle_queue` event list. -/
def countSpawn (u : Url) (evs : List QEvent) : Nat :=
  (evs.filter (QEvent.isSpawnFor u)).length

/-- Number of unsupported-sink writes for `u` in a `handle_queue` event
list. -/
def countUnsup (u : Url) (evs : List QEvent) : Nat :=
  (evs.filter (QEvent.isUnsupportedFor u)).length

/-- Environment with skip policy `"abort:3"`: `_skipexc = StopExtraction`,
`_skipmax = 3`. -/
def envAbort3 : Env :=
  { envBase with skipExcCfg := some SkipExcKind.stop, skipMax := 3 }

/-- Environment in which the primary download succeeds and writes bytes. -/
def envDlOk : Env :=
  { envBase with hasDownloader := fun _ => true, dlResult := fun _ => DlRes.ok }

/-- A child-run behaviour whose first attempt accumulates status bit 4 and
raises `RestartExtraction`, and whose second attempt accumulates nothing
and completes. -/
def specRestartOnce : Nat → ChildRunSpec :=
  fun n => if n = 0 then ⟨4, id, true⟩ else ⟨0, id, false⟩

/-- A child-run behaviour with a non-trivial skip-counter evolution: the
first attempt adds 5 to the counter and restarts, the second adds 7 and
completes. -/
def specCntEvol : Nat → ChildRunSpec :=
  fun n => if n = 0 then ⟨4, fun c => c + 5, true⟩ else ⟨2, fun c => c + 7, false⟩

/-- A queue environment in which no URL resolves to an extractor. -/
def qenvNone : QEnv := ⟨fun _ => none, fun _ => true, false⟩

/-! ### Helper lemmas -/

theorem handle_skip_trace (env : Env) (st : JS) :
    (DownloadJob.handle_skip env st).trace =
      Event.outSkip :: (if env.hasSkipHook then [Event.skipHook] else []) := by
  unfold DownloadJob.handle_skip
  cases env.skipExcCfg
  · rfl
  · dsimp only
    split <;> rfl

theorem handle_skip_status (env : Env) (st : JS) :
    (DownloadJob.handle_skip env st).st.status = st.status := by
  unfold DownloadJob.handle_skip
  cases env.skipExcCfg
  · rfl
  · dsimp only
    split <;> rfl

theorem run_trace_finalizes (s : Nat) (e : Option Exc) (m : Bool) :
    ∃ pre, (Job.run s e m).trace =
      pre ++ [Event.finalizeHandlers, Event.finalizeExtractor] := by
  rcases e with _ | exc
  · exact ⟨if m then [] else [Event.logNoResults], rfl⟩
  · cases exc
    case stopExtraction msg c =>
      exact ⟨if msgTruthy msg then [Event.logStopMessage] else [], rfl⟩
    case terminateExtraction => exact ⟨[], rfl⟩
    case restartExtraction => exact ⟨[], rfl⟩
    case galleryDLException n c => exact ⟨[Event.logGdlError], rfl⟩
    case osError b => exact ⟨[Event.logOSError, Event.logDebugTrace], rfl⟩
    case exceptionOther n => exact ⟨[Event.logUnexpected, Event.logDebugTrace], rfl⟩
    case systemExit => exact ⟨[], rfl⟩
    case baseOther => exact ⟨[], rfl⟩

/-! ### Claim C3 -/

/-- Claim C3: when an archive is configured and `archive.check(metadata)`
is true, `handle_url` performs extension bookkeeping only, counts the item
as a skip, and returns: no downloader is invoked and `archive.add` is not
called. -/
theorem handle_url_archive_hit_skips (env : Env) (st : JS) (url : Url) (kw : Kwdict)
    (h1 : env.archive = true) (h2 : env.archiveCheck = true) :
    Event.fixExtension ∈ (DownloadJob.handle_url env st url kw).trace ∧
    Event.outSkip ∈ (DownloadJob.handle_url env st url kw).trace ∧
    (∀ u, Event.dlAttempt u ∉ (DownloadJob.handle_url env st url kw).trace) ∧
    Event.archiveAdd ∉ (DownloadJob.handle_url env st url kw).trace := by
  have htr : (DownloadJob.handle_url env st url kw).trace =
      Event.setFilename :: (if env.hasPrepareHook then [Event.prepareHook] else [])
        ++ Event.fixExtension :: Event.outSkip ::
          (if env.hasSkipHook then [Event.skipHook] else []) := by
    simp [DownloadJob.handle_url, h1, h2, handle_skip_trace]
  refine ⟨?_, ?_, ?_, ?_⟩
  · rw [htr]; split_ifs <;> simp
  · rw [htr]; split_ifs <;> simp
  · intro u; rw [htr]; split_ifs <;> simp
  · rw [htr]; split_ifs <;> simp

/-- Witness for `handle_url_archive_hit_skips` at a concrete input. -/
theorem handle_url_archive_hit_skips_witness :
    Event.fixExtension ∈ (DownloadJob.handle_url envArchiveHit ⟨0, 0⟩ "u" ⟨[]⟩).trace ∧
    Event.outSkip ∈ (DownloadJob.handle_url envArchiveHit ⟨0, 0⟩ "u" ⟨[]⟩).trace ∧
    (∀ u, Event.dlAttempt u ∉ (DownloadJob.handle_url envArchiveHit ⟨0, 0⟩ "u" ⟨[]⟩).trace) ∧
    Event.archiveAdd ∉ (DownloadJob.handle_url envArchiveHit ⟨0, 0⟩ "u" ⟨[]⟩).trace :=
  handle_url_archive_hit_skips envArchiveHit ⟨0, 0⟩ "u" ⟨[]⟩ rfl rfl

/-! ### Claim C4 -/

/-- Claim C4 counterexample: the on-disk existence check is guarded by
`pathfmt.extension and not self.metadata_http` (`job.py` line 259); with an
unknown extension the file exists on disk, the archive does not contain the
key, and yet `handle_url` invokes the downloader and does not count a
skip. -/
theorem handle_url_exists_without_extension_downloads :
    envExistsNoExt.pathExists = true ∧
    envExistsNoExt.archiveCheck = false ∧
    Event.dlAttempt "u" ∈ (DownloadJob.handle_url envExistsNoExt ⟨0, 0⟩ "u" ⟨[]⟩).trace ∧
    Event.outSkip ∉ (DownloadJob.handle_url envExistsNoExt ⟨0, 0⟩ "u" ⟨[]⟩).trace := by
  decide

/-- Claim C4 (amended): when the archive does not report the key, the
filename extension is known, `http-metadata` is not configured, and the
target file exists on disk, `handle_url` records the item in the archive
(when one is configured), counts a skip, and returns without attempting a
download. -/
theorem handle_url_existing_file_skips (env : Env) (st : JS) (url : Url) (kw : Kwdict)
    (h0 : (env.archive && env.archiveCheck) = false)
    (h1 : env.pathExtension = true) (h2 : env.metadataHttp = false)
    (h3 : env.pathExists = true) :
    Event.outSkip ∈ (DownloadJob.handle_url env st url kw).trace ∧
    (env.archive = true → Event.archiveAdd ∈ (DownloadJob.handle_url env st url kw).trace) ∧
    (∀ u, Event.dlAttempt u ∉ (DownloadJob.handle_url env st url kw).trace) := by
  have htr : (DownloadJob.handle_url env st url kw).trace =
      Event.setFilename :: (if env.hasPrepareHook then [Event.prepareHook] else [])
        ++ [Event.buildPath]
        ++ (if env.archive then [Event.archiveAdd] else [])
        ++ Event.outSkip :: (if env.hasSkipHook then [Event.skipHook] else []) := by
    simp [DownloadJob.handle_url, h0, h1, h2, h3, handle_skip_trace]
  refine ⟨?_, ?_, ?_⟩
  · rw [htr]; split_ifs <;> simp
  · intro ha; rw [htr]; simp [ha]
  · intro u; rw [htr]; split_ifs <;> simp

/-- Witness for `handle_url_existing_file_skips` at a concrete input. -/
theorem handle_url_existing_file_skips_witness :
    Event.outSkip ∈ (DownloadJob.handle_url envExistsExt ⟨0, 0⟩ "u" ⟨[]⟩).trace ∧
    (envExistsExt.archive = true →
      Event.archiveAdd ∈ (DownloadJob.handle_url envExistsExt ⟨0, 0⟩ "u" ⟨[]⟩).trace) ∧
    (∀ u, Event.dlAttempt u ∉ (DownloadJob.handle_url envExistsExt ⟨0, 0⟩ "u" ⟨[]⟩).trace) :=
  handle_url_existing_file_skips envExistsExt ⟨0, 0⟩ "u" ⟨[]⟩ rfl rfl rfl rfl

/-! ### Claim C1 -/

/-- Claim C1 counterexample: a storage-exhaustion `OSError` is re-raised by
`DownloadJob.download` (`job.py` lines 407-409), but `Job.run`'s
`except OSError` handler (lines 115-119) catches it like any other OS
error: it sets bit 128 and returns, rather than re-raising it to the
caller. -/
theorem run_enospc_not_reraised :
    (DownloadJob.download envEnospc "u").exc = some (Exc.osError true) ∧
    (Job.run 0 (some (Exc.osError true)) true).raised = none ∧
    (Job.run 0 (some (Exc.osError true)) true).status = 128 := by
  decide

/-- Claim C1 (amended): for every `Job.run` invocation — a caught soft-stop
signal is logged (when it carries a message) and its status code OR-ed into
the returned status; a terminate or restart control signal is re-raised
unchanged without altering the status; any other exception is logged and
sets the generic-error bit 1 without propagating; an OS-level error —
including storage exhaustion, which `DownloadJob.download` re-raises up to
`run` — is logged and sets the fatal bit 128 without `run` re-raising it;
in all cases finalization teardown runs, and `run` returns the accumulated
status bitmask. -/
theorem run_exception_taxonomy :
    (∀ s e m, Event.finalizeHandlers ∈ (Job.run s e m).trace ∧
      Event.finalizeExtractor ∈ (Job.run s e m).trace) ∧
    (∀ s m msg c, (Job.run s (some (Exc.stopExtraction msg c)) m).raised = none ∧
      (Job.run s (some (Exc.stopExtraction msg c)) m).status = s ||| c ∧
      (Event.logStopMessage ∈ (Job.run s (some (Exc.stopExtraction msg c)) m).trace
        ↔ msgTruthy msg = true)) ∧
    (∀ s m, (Job.run s (some Exc.terminateExtraction) m).raised =
        some Exc.terminateExtraction ∧
      (Job.run s (some Exc.terminateExtraction) m).status = s) ∧
    (∀ s m, (Job.run s (some Exc.restartExtraction) m).raised =
        some Exc.restartExtraction ∧
      (Job.run s (some Exc.restartExtraction) m).status = s) ∧
    (∀ s m n c, (Job.run s (some (Exc.galleryDLException n c)) m).raised = none ∧
      (Job.run s (some (Exc.galleryDLException n c)) m).status = s ||| c ∧
      Event.logGdlError ∈ (Job.run s (some (Exc.galleryDLException n c)) m).trace) ∧
    (∀ s m n, (Job.run s (some (Exc.exceptionOther n)) m).raised = none ∧
      (Job.run s (some (Exc.exceptionOther n)) m).status = s ||| 1 ∧
      Event.logUnexpected ∈ (Job.run s (some (Exc.exceptionOther n)) m).trace ∧
      Event.logDebugTrace ∈ (Job.run s (some (Exc.exceptionOther n)) m).trace) ∧
    (∀ s m b, (Job.run s (some (Exc.osError b)) m).raised = none ∧
      (Job.run s (some (Exc.osError b)) m).status = s ||| 128 ∧
      Event.logOSError ∈ (Job.run s (some (Exc.osError b)) m).trace) ∧
    (∀ s m, (Job.run s none m).raised = none ∧ (Job.run s none m).status = s) := by
  refine ⟨?_, ?_, ?_, ?_, ?_, ?_, ?_, ?_⟩
  · intro s e m
    obtain ⟨pre, hp⟩ := run_trace_finalizes s e m
    constructor <;> simp [hp]
  · intro s m msg c
    refine ⟨rfl, rfl, ?_⟩
    simp only [Job.run]
    split_ifs with h <;> simp [h]
  · intro s m; exact ⟨rfl, rfl⟩
  · intro s m; exact ⟨rfl, rfl⟩
  · intro s m n c; exact ⟨rfl, rfl, by simp [Job.run]⟩
  · intro s m n; exact ⟨rfl, rfl, by simp [Job.run], by simp [Job.run]⟩
  · intro s m b; exact ⟨rfl, rfl, by simp [Job.run]⟩
  · intro s m; exact ⟨rfl, rfl⟩

/-! ### Claim C2 -/

theorem download_trace_no_misc (env : Env) (u : Url) :
    Event.archiveAdd ∉ (DownloadJob.download env u).trace ∧
    Event.outSkip ∉ (DownloadJob.download env u).trace ∧
    Event.removeTemp ∉ (DownloadJob.download env u).trace ∧
    Event.logFailed ∉ (DownloadJob.download env u).trace := by
  unfold DownloadJob.download
  cases hd : env.hasDownloader u
  · simp only [Bool.false_eq_true, if_false]
    split_ifs <;> simp
  · simp only [if_true]
    rcases hr : env.dlResult u with _ | _ | b
    · simp
    · simp
    · cases b <;> simp

/-- Membership in a hook-conditional singleton event list. -/
theorem mem_ite_nil (a x : Event) (c : Bool) :
    (a ∈ (if c = true then [x] else [])) ↔ (c = true ∧ a = x) := by
  cases c <;> simp

theorem tryFallback_all_fail (env : Env) (urls : List Url)
    (h : ∀ u ∈ urls, (DownloadJob.download env u).ok = false ∧
      (DownloadJob.download env u).exc = none) :
    (DownloadJob.tryFallback env urls).ok = false ∧
    (DownloadJob.tryFallback env urls).exc = none ∧
    Event.archiveAdd ∉ (DownloadJob.tryFallback env urls).trace ∧
    Event.outSkip ∉ (DownloadJob.tryFallback env urls).trace ∧
    (DownloadJob.tryFallback env urls).trace.count Event.removeTemp = urls.length := by
  induction urls with
  | nil => simp [DownloadJob.tryFallback]
  | cons u rest ih =>
    obtain ⟨hok, hexc⟩ := h u (List.mem_cons_self u rest)
    have hrest := ih (fun v hv => h v (List.mem_cons_of_mem u hv))
    have hno := download_trace_no_misc env u
    have hcnt0 : (DownloadJob.download env u).trace.count Event.removeTemp = 0 :=
      List.count_eq_zero.mpr hno.2.2.1
    unfold DownloadJob.tryFallback
    simp only [hexc, hok, Bool.false_eq_true, if_false]
    refine ⟨hrest.1, hrest.2.1, ?_, ?_, ?_⟩
    · simp [hno.1, hrest.2.2.1]
    · simp [hno.2.1, hrest.2.2.2.1]
    · simp [List.count_cons, List.count_append, hcnt0, hrest.2.2.2.2]

/-- Claim C2: when the primary download fails and every fallback URL
carried in the metadata also fails (each tried with the partial temp file
removed first), `handle_url` sets the "download failed" status bit 4, logs
an error, and returns without raising, without recording the item in the
archive, and without counting it as a skip, so the item stays retryable. -/
theorem handle_url_all_downloads_fail (env : Env) (st : JS) (url : Url) (kw : Kwdict)
    (h0 : (env.archive && env.archiveCheck) = false)
    (h1 : (env.pathExtension && !env.metadataHttp && env.pathExists) = false)
    (h2 : (DownloadJob.download env url).ok = false)
    (h3 : (DownloadJob.download env url).exc = none)
    (h4 : ∀ u ∈ kw.fallback, (DownloadJob.download env u).ok = false ∧
      (DownloadJob.download env u).exc = none) :
    (DownloadJob.handle_url env st url kw).st.status = st.status ||| 4 ∧
    (DownloadJob.handle_url env st url kw).st.skipcnt = st.skipcnt ∧
    (DownloadJob.handle_url env st url kw).exc = none ∧
    Event.logFailed ∈ (DownloadJob.handle_url env st url kw).trace ∧
    Event.archiveAdd ∉ (DownloadJob.handle_url env st url kw).trace ∧
    Event.outSkip ∉ (DownloadJob.handle_url env st url kw).trace ∧
    (DownloadJob.handle_url env st url kw).trace.count Event.removeTemp =
      (if env.fallback then kw.fallback else []).length := by
  have hfb : ∀ u ∈ (if env.fallback then kw.fallback else []),
      (DownloadJob.download env u).ok = false ∧
      (DownloadJob.download env u).exc = none := by
    cases env.fallback
    · simp
    · simpa using h4
  have hf := tryFallback_all_fail env (if env.fallback then kw.fallback else []) hfb
  have hno := download_trace_no_misc env url
  have hcnt0 : (DownloadJob.download env url).trace.count Event.removeTemp = 0 :=
    List.count_eq_zero.mpr hno.2.2.1
  have heq : DownloadJob.handle_url env st url kw =
      ⟨{ st with status := st.status ||| 4 },
        (Event.setFilename ::
          (if env.hasPrepareHook then [Event.prepareHook] else [])
          ++ (if env.pathExtension && !env.metadataHttp then [Event.buildPath] else [])
          ++ (if env.sleepCfg then [Event.sleepDownload] else []))
          ++ (DownloadJob.download env url).trace
          ++ (DownloadJob.tryFallback env
                (if env.fallback then kw.fallback else [])).trace
          ++ [Event.logFailed], none⟩ := by
    unfold DownloadJob.handle_url
    rw [h0]
    simp only [Bool.false_eq_true, if_false]
    split
    · next hcond =>
      rw [h1] at hcond
      exact absurd hcond (by simp)
    · rw [h3, h2]
      simp only [Bool.false_eq_true, if_false]
      rw [hf.2.1, hf.1]
      simp [List.append_assoc]
  have hpre : (Event.setFilename ::
      (if env.hasPrepareHook then [Event.prepareHook] else [])
      ++ (if env.pathExtension && !env.metadataHttp then [Event.buildPath] else [])
      ++ (if env.sleepCfg then [Event.sleepDownload] else [])).count Event.removeTemp
      = 0 := by
    refine List.count_eq_zero.mpr ?_
    simp [mem_ite_nil]
  rw [heq]
  refine ⟨rfl, rfl, rfl, by simp, ?_, ?_, ?_⟩
  · simp [mem_ite_nil, hno.1, hf.2.2.1]
  · simp [mem_ite_nil, hno.2.1, hf.2.2.2.1]
  · simp only [List.count_append, hpre, hcnt0, hf.2.2.2.2, List.count_cons,
      List.count_nil]
    simp

/-- Witness for `handle_url_all_downloads_fail` at a concrete input: no
scheme has a downloader, so the primary URL and both fallback URLs fail. -/
theorem handle_url_all_downloads_fail_witness :
    (DownloadJob.handle_url envBase ⟨0, 0⟩ "u" ⟨["f1", "f2"]⟩).st.status = 0 ||| 4 ∧
    (DownloadJob.handle_url envBase ⟨0, 0⟩ "u" ⟨["f1", "f2"]⟩).st.skipcnt = 0 ∧
    (DownloadJob.handle_url envBase ⟨0, 0⟩ "u" ⟨["f1", "f2"]⟩).exc = none ∧
    Event.logFailed ∈ (DownloadJob.handle_url envBase ⟨0, 0⟩ "u" ⟨["f1", "f2"]⟩).trace ∧
    Event.archiveAdd ∉ (DownloadJob.handle_url envBase ⟨0, 0⟩ "u" ⟨["f1", "f2"]⟩).trace ∧
    Event.outSkip ∉ (DownloadJob.handle_url envBase ⟨0, 0⟩ "u" ⟨["f1", "f2"]⟩).trace ∧
    (DownloadJob.handle_url envBase ⟨0, 0⟩ "u" ⟨["f1", "f2"]⟩).trace.count Event.removeTemp =
      (if envBase.fallback then ["f1", "f2"] else []).length :=
  handle_url_all_downloads_fail envBase ⟨0, 0⟩ "u" ⟨["f1", "f2"]⟩ rfl rfl rfl rfl
    (fun _ _ => ⟨rfl, rfl⟩)

/-! ### Claims C5 and C10 -/

/-- The retry loop, run from attempt `i`, completes on the first attempt
whose `restart` flag is clear, with the child's status accumulated over
*all* attempts since the same child Job object is reused, and the skip
counters evolved according to the `parent-skip` setting. -/
theorem queueLoop_complete (ps : Bool) (spec : Nat → ChildRunSpec) :
    ∀ (k fuel i : Nat) (q : QState),
      (∀ j, j < k → (spec (i + j)).restart = true) →
      (spec (i + k)).restart = false →
      k < fuel →
      DownloadJob.queueLoop ps spec fuel i q =
        some ⟨q.pStatus ||| (q.cStatus ||| orBitsFrom spec i k),
              if ps then (spec (i + k)).cntAfter q.pCnt else q.pCnt,
              q.cStatus ||| orBitsFrom spec i k,
              if ps then (spec (i + k)).cntAfter q.pCnt
              else cntChain spec i k q.cCnt⟩ := by
  intro k
  induction k with
  | zero =>
    intro fuel i q hres hdone hfuel
    obtain ⟨f, rfl⟩ : ∃ f, fuel = f + 1 := ⟨fuel - 1, by omega⟩
    rw [Nat.add_zero] at hdone
    unfold DownloadJob.queueLoop
    simp only [hdone, Bool.false_eq_true, if_false]
    cases ps <;> simp [orBitsFrom, cntChain]
  | succ k ihk =>
    intro fuel i q hres hdone hfuel
    obtain ⟨f, rfl⟩ : ∃ f, fuel = f + 1 := ⟨fuel - 1, by omega⟩
    have h0 : (spec i).restart = true := by
      have h := hres 0 (Nat.succ_pos k)
      rwa [Nat.add_zero] at h
    have harg1 : ∀ j, j < k → (spec (i + 1 + j)).restart = true := by
      intro j hj
      have h := hres (j + 1) (by omega)
      have he : i + (j + 1) = i + 1 + j := by omega
      rwa [he] at h
    have harg2 : (spec (i + 1 + k)).restart = false := by
      have he : i + (k + 1) = i + 1 + k := by omega
      rwa [he] at hdone
    unfold DownloadJob.queueLoop
    simp only [h0, if_true]
    rw [ihk f (i + 1) _ harg1 harg2 (by omega)]
    have hidx : i + 1 + k = i + (k + 1) := by omega
    cases ps <;>
      simp [hidx, orBitsFrom, cntChain, Nat.lor_assoc]

/-- Claim C5 counterexample: the child Job is constructed once, outside the
retry loop (`job.py` line 338); a restart re-runs the *same* object, whose
status persists, so the status OR-ed into the parent after the completing
run includes bits accumulated during restarted attempts.  Here the first
attempt sets bit 4 and restarts, the completing second attempt contributes
nothing, yet the parent receives 4 — reconstruction from scratch (the
claim's reading, `queueLoopReconstruct`) would give 0. -/
theorem queueLoop_keeps_child_state_across_restarts :
    DownloadJob.runChildLoop false specRestartOnce 3 0 0 = some ⟨4, 0, 4, 0⟩ ∧
    queueLoopReconstruct false specRestartOnce 3 0 ⟨0, 0, 0, 0⟩ = some ⟨0, 0, 0, 0⟩ :=
  ⟨rfl, rfl⟩

/-- Claim C5 (amended): when a child raises the restart control signal, the
parent re-runs the *same* child Job (constructed once) from the top of the
loop, for arbitrarily many restarts, until a run completes without
raising; the status OR-ed into the parent is the child's accumulated
status, which includes bits from the restarted attempts. -/
theorem queueLoop_retries_until_complete (ps : Bool) (spec : Nat → ChildRunSpec)
    (k fuel pStatus pCnt : Nat)
    (hres : ∀ j, j < k → (spec j).restart = true)
    (hdone : (spec k).restart = false)
    (hfuel : k < fuel) :
    (DownloadJob.runChildLoop ps spec fuel pStatus pCnt).map QState.pStatus =
      some (pStatus ||| orBitsFrom spec 0 k) := by
  unfold DownloadJob.runChildLoop
  rw [queueLoop_complete ps spec k fuel 0 ⟨pStatus, pCnt, 0, 0⟩
    (by simpa using hres) (by simpa using hdone) hfuel]
  simp

/-- Witness for `queueLoop_retries_until_complete`: one restart, then a
completing attempt. -/
theorem queueLoop_retries_until_complete_witness :
    (DownloadJob.runChildLoop false specRestartOnce 3 8 0).map QState.pStatus =
      some (8 ||| orBitsFrom specRestartOnce 0 1) :=
  queueLoop_retries_until_complete false specRestartOnce 1 3 8 0
    (fun j hj => by
      have hj0 : j = 0 := by omega
      rw [hj0]; rfl)
    rfl (by omega)

/-- Claim C10: with `parent-skip` enabled, each attempt seeds the child's
consecutive-skip counter with the parent's current counter, and on normal
return the parent's counter is overwritten with the child's final counter
(`(spec k).cntAfter pCnt`); with it disabled, the parent's counter is
unchanged and the child's counter evolves from its initial 0 independently
of the parent's (`cntChain spec 0 k 0`). -/
theorem queueLoop_parent_skip_counter (spec : Nat → ChildRunSpec)
    (k fuel pStatus pCnt : Nat)
    (hres : ∀ j, j < k → (spec j).restart = true)
    (hdone : (spec k).restart = false)
    (hfuel : k < fuel) :
    DownloadJob.runChildLoop true spec fuel pStatus pCnt =
      some ⟨pStatus ||| orBitsFrom spec 0 k, (spec k).cntAfter pCnt,
            orBitsFrom spec 0 k, (spec k).cntAfter pCnt⟩ ∧
    DownloadJob.runChildLoop false spec fuel pStatus pCnt =
      some ⟨pStatus ||| orBitsFrom spec 0 k, pCnt,
            orBitsFrom spec 0 k, cntChain spec 0 k 0⟩ := by
  constructor <;>
  · unfold DownloadJob.runChildLoop
    rw [queueLoop_complete _ spec k fuel 0 ⟨pStatus, pCnt, 0, 0⟩
      (by simpa using hres) (by simpa using hdone) hfuel]
    simp

/-- Witness for `queueLoop_parent_skip_counter`: one restart with
counter evolution `+5`, then a completing attempt with `+7`. -/
theorem queueLoop_parent_skip_counter_witness :
    DownloadJob.runChildLoop true specCntEvol 3 1 2 =
      some ⟨1 ||| orBitsFrom specCntEvol 0 1, (specCntEvol 1).cntAfter 2,
            orBitsFrom specCntEvol 0 1, (specCntEvol 1).cntAfter 2⟩ ∧
    DownloadJob.runChildLoop false specCntEvol 3 1 2 =
      some ⟨1 ||| orBitsFrom specCntEvol 0 1, 2,
            orBitsFrom specCntEvol 0 1, cntChain specCntEvol 0 1 0⟩ :=
  queueLoop_parent_skip_counter specCntEvol 1 3 1 2
    (fun j hj => by
      have hj0 : j = 0 := by omega
      rw [hj0]; rfl)
    rfl (by omega)

/-! ### Claims C6 and C9 -/

theorem handle_queue_resolve_adds (env : QEnv) (vis : List Url) (u : Url)
    (h : ExtrHint) (hnot : u ∉ vis) :
    u ∈ (DownloadJob.handle_queue_resolve env vis u h).1 := by
  unfold DownloadJob.handle_queue_resolve
  rw [if_neg hnot]
  cases hr : resolveExtractor env u h <;> simp

theorem handle_queue_resolve_seen (env : QEnv) (vis : List Url) (u : Url)
    (h : ExtrHint) (hmem : u ∈ vis) :
    DownloadJob.handle_queue_resolve env vis u h = (vis, []) := by
  unfold DownloadJob.handle_queue_resolve
  rw [if_pos hmem]

theorem handle_queue_resolve_mono (env : QEnv) (vis : List Url) (v : Url)
    (h : ExtrHint) (w : Url) (hw : w ∈ vis) :
    w ∈ (DownloadJob.handle_queue_resolve env vis v h).1 := by
  unfold DownloadJob.handle_queue_resolve
  by_cases hv : v ∈ vis
  · rw [if_pos hv]; exact hw
  · rw [if_neg hv]
    cases hr : resolveExtractor env v h <;> simp [hw]

theorem countSpawn_append (u : Url) (l1 l2 : List QEvent) :
    countSpawn u (l1 ++ l2) = countSpawn u l1 + countSpawn u l2 := by
  simp [countSpawn, List.filter_append]

theorem countUnsup_append (u : Url) (l1 l2 : List QEvent) :
    countUnsup u (l1 ++ l2) = countUnsup u l1 + countUnsup u l2 := by
  simp [countUnsup, List.filter_append]

theorem countSpawn_nil (u : Url) : countSpawn u [] = 0 := rfl

theorem countUnsup_nil (u : Url) : countUnsup u [] = 0 := rfl

theorem counts_resolve_other (env : QEnv) (vis : List Url) (v : Url)
    (h : ExtrHint) (u : Url) (hne : v ≠ u) :
    countSpawn u (DownloadJob.handle_queue_resolve env vis v h).2 = 0 ∧
    countUnsup u (DownloadJob.handle_queue_resolve env vis v h).2 = 0 := by
  unfold DownloadJob.handle_queue_resolve
  by_cases hv : v ∈ vis
  · rw [if_pos hv]; simp [countSpawn, countUnsup]
  · rw [if_neg hv]
    cases hr : resolveExtractor env v h
    · split_ifs <;>
        simp [countSpawn, countUnsup, QEvent.isSpawnFor, QEvent.isUnsupportedFor,
          beq_iff_eq, hne]
    · simp [countSpawn, countUnsup, QEvent.isSpawnFor, QEvent.isUnsupportedFor,
        beq_iff_eq, hne]

theorem counts_resolve_self (env : QEnv) (vis : List Url) (u : Url) (h : ExtrHint) :
    countSpawn u (DownloadJob.handle_queue_resolve env vis u h).2 ≤ 1 ∧
    countUnsup u (DownloadJob.handle_queue_resolve env vis u h).2 ≤ 1 := by
  unfold DownloadJob.handle_queue_resolve
  by_cases hv : u ∈ vis
  · rw [if_pos hv]; simp [countSpawn, countUnsup]
  · rw [if_neg hv]
    cases hr : resolveExtractor env u h
    · split_ifs <;>
        simp [countSpawn, countUnsup, QEvent.isSpawnFor, QEvent.isUnsupportedFor]
    · simp [countSpawn, countUnsup, QEvent.isSpawnFor, QEvent.isUnsupportedFor]

theorem processQueue_counts_zero (env : QEnv) (u : Url) :
    ∀ (msgs : List (Url × ExtrHint)) (vis : List Url), u ∈ vis →
      countSpawn u (processQueue env msgs vis).2 = 0 ∧
      countUnsup u (processQueue env msgs vis).2 = 0 := by
  intro msgs
  induction msgs with
  | nil => intro vis hvis; simp [processQueue, countSpawn, countUnsup]
  | cons m rest ih =>
    intro vis hvis
    obtain ⟨v, h⟩ := m
    unfold processQueue
    by_cases hvu : v = u
    · subst hvu
      rw [handle_queue_resolve_seen env vis v h hvis]
      have hr := ih vis hvis
      dsimp only
      simp [countSpawn_append, countUnsup_append, countSpawn_nil, countUnsup_nil,
        hr.1, hr.2]
    · have h1 := counts_resolve_other env vis v h u hvu
      have h2 := ih (DownloadJob.handle_queue_resolve env vis v h).1
        (handle_queue_resolve_mono env vis v h u hvis)
      simp [countSpawn_append, countUnsup_append, h1.1, h1.2, h2.1, h2.2]

theorem processQueue_counts_le_one (env : QEnv) (u : Url) :
    ∀ (msgs : List (Url × ExtrHint)) (vis : List Url),
      countSpawn u (processQueue env msgs vis).2 ≤ 1 ∧
      countUnsup u (processQueue env msgs vis).2 ≤ 1 := by
  intro msgs
  induction msgs with
  | nil => intro vis; simp [processQueue, countSpawn, countUnsup]
  | cons m rest ih =>
    intro vis
    obtain ⟨v, h⟩ := m
    unfold processQueue
    by_cases hvu : v = u
    · subst hvu
      by_cases hvis : v ∈ vis
      · rw [handle_queue_resolve_seen env vis v h hvis]
        have hr := ih vis
        dsimp only
        simpa [countSpawn_append, countUnsup_append, countSpawn_nil, countUnsup_nil]
          using hr
      · have hself := counts_resolve_self env vis v h
        have hafter := processQueue_counts_zero env v rest
          (DownloadJob.handle_queue_resolve env vis v h).1
          (handle_queue_resolve_adds env vis v h hvis)
        simp only [countSpawn_append, countUnsup_append, hafter.1, hafter.2]
        omega
    · have h1 := counts_resolve_other env vis v h u hvu
      have hrest := ih (DownloadJob.handle_queue_resolve env vis v h).1
      simp only [countSpawn_append, countUnsup_append, h1.1, h1.2]
      simpa using hrest

/-- Claim C6 counterexample: two `Queue` messages with the same URL that
fails extractor resolution spawn *zero* child Jobs, not exactly one. -/
theorem queue_unresolved_url_spawns_nothing :
    (processQueue qenvNone [("a", none), ("a", none)] []).2 = [] ∧
    countSpawn "a" (processQueue qenvNone [("a", none), ("a", none)] []).2 = 0 := by
  constructor <;> rfl

/-- Claim C6 (amended): the visited-URL set is shared by reference from the
root Job to every descendant (`__init__` line 237), and two `Queue`
messages carrying an identical URL spawn *at most* one child Job — exactly
one iff the first message's URL resolves to an extractor (explicit hint, or
registry lookup passing the whitelist/blacklist filter); the later message
is ignored silently. -/
theorem queue_dedup_shared_visited :
    (∀ (r f : VisRef), DownloadJob.initVisited (some r) f = r) ∧
    (∀ (root : VisRef) (fresh : Nat → VisRef) (n : Nat),
      descendantVisited root fresh n = root) ∧
    (∀ (env : QEnv) (msgs : List (Url × ExtrHint)) (u : Url),
      countSpawn u (processQueue env msgs []).2 ≤ 1) ∧
    (∀ (env : QEnv) (vis : List Url) (u : Url) (h1 h2 : ExtrHint), u ∉ vis →
      countSpawn u (DownloadJob.handle_queue_resolve env vis u h1).2 =
        (if (resolveExtractor env u h1).isSome then 1 else 0) ∧
      DownloadJob.handle_queue_resolve env
          (DownloadJob.handle_queue_resolve env vis u h1).1 u h2 =
        ((DownloadJob.handle_queue_resolve env vis u h1).1, [])) := by
  refine ⟨fun r f => rfl, ?_, ?_, ?_⟩
  · intro root fresh n
    induction n with
    | zero => rfl
    | succ n ihn => simp [descendantVisited, DownloadJob.initVisited, ihn]
  · intro env msgs u
    exact (processQueue_counts_le_one env u msgs []).1
  · intro env vis u h1 h2 hnot
    refine ⟨?_, handle_queue_resolve_seen env _ u h2
      (handle_queue_resolve_adds env vis u h1 hnot)⟩
    unfold DownloadJob.handle_queue_resolve
    rw [if_neg hnot]
    cases hr : resolveExtractor env u h1
    · split_ifs <;> simp_all [countSpawn, QEvent.isSpawnFor, QEvent.isUnsupportedFor]
    · simp [countSpawn, QEvent.isSpawnFor]

/-- Witness for `queue_dedup_shared_visited` at concrete inputs. -/
theorem queue_dedup_shared_visited_witness :
    DownloadJob.initVisited (some 7) 9 = 7 ∧
    descendantVisited 7 (fun d => d + 10) 3 = 7 ∧
    countSpawn "a" (processQueue qenvNone [("a", none), ("a", none)] []).2 ≤ 1 ∧
    (countSpawn "a"
        (DownloadJob.handle_queue_resolve qenvNone [] "a" (some (some "E"))).2 =
      (if (resolveExtractor qenvNone "a" (some (some "E"))).isSome then 1 else 0) ∧
      DownloadJob.handle_queue_resolve qenvNone
          (DownloadJob.handle_queue_resolve qenvNone [] "a" (some (some "E"))).1 "a" none =
        ((DownloadJob.handle_queue_resolve qenvNone [] "a" (some (some "E"))).1, [])) :=
  ⟨queue_dedup_shared_visited.1 7 9,
   queue_dedup_shared_visited.2.1 7 (fun d => d + 10) 3,
   queue_dedup_shared_visited.2.2.1 qenvNone [("a", none), ("a", none)] "a",
   queue_dedup_shared_visited.2.2.2 qenvNone [] "a" (some (some "E")) none (by simp)⟩

/-- Claim C9: `handle_queue` adds the URL to the shared visited set before
extractor resolution, so a URL that fails to resolve (or is denied by the
category filter, both abstracted by `resolveExtractor` returning `none`) is
permanently marked visited; any later `Queue` message with the same URL is
silently ignored, even with an `_extractor` hint, and the unsupported sink
receives each distinct URL at most once per run. -/
theorem queue_visited_before_resolution :
    (∀ (env : QEnv) (vis : List Url) (u : Url) (h : ExtrHint), u ∉ vis →
      u ∈ (DownloadJob.handle_queue_resolve env vis u h).1) ∧
    (∀ (env : QEnv) (vis : List Url) (u : Url) (h : ExtrHint), u ∈ vis →
      DownloadJob.handle_queue_resolve env vis u h = (vis, [])) ∧
    (∀ (env : QEnv) (msgs : List (Url × ExtrHint)) (u : Url),
      countUnsup u (processQueue env msgs []).2 ≤ 1) :=
  ⟨handle_queue_resolve_adds, handle_queue_resolve_seen,
   fun env msgs u => (processQueue_counts_le_one env u msgs []).2⟩

/-- Witness for `queue_visited_before_resolution` at concrete inputs: the
URL "a" does not resolve in `qenvNone`, is marked visited anyway, and a
second message for it (with a hint that would resolve) is ignored. -/
theorem queue_visited_before_resolution_witness :
    "a" ∈ (DownloadJob.handle_queue_resolve qenvNone [] "a" none).1 ∧
    DownloadJob.handle_queue_resolve qenvNone ["a"] "a" (some (some "E")) =
      (["a"], []) ∧
    countUnsup "a" (processQueue qenvNone [("a", none), ("a", none)] []).2 ≤ 1 :=
  ⟨queue_visited_before_resolution.1 qenvNone [] "a" none (by simp),
   queue_visited_before_resolution.2.1 qenvNone ["a"] "a" (some (some "E")) (by simp),
   queue_visited_before_resolution.2.2 qenvNone [("a", none), ("a", none)] "a"⟩

/-! ### Claim C7 -/

theorem handle_url_done_status (env : Env) (st : JS) (tr : List Event) :
    (DownloadJob.handle_url_done env st tr).st.status = st.status := by
  unfold DownloadJob.handle_url_done
  split_ifs <;> simp [handle_skip_status]

/-- `handle_url` either leaves `self.status` unchanged or ORs in bit 4. -/
theorem handle_url_status_or (env : Env) (st : JS) (url : Url) (kw : Kwdict) :
    (DownloadJob.handle_url env st url kw).st.status = st.status ∨
    (DownloadJob.handle_url env st url kw).st.status = st.status ||| 4 := by
  unfold DownloadJob.handle_url
  by_cases hA : (env.archive && env.archiveCheck) = true
  · rw [if_pos hA]
    exact Or.inl (handle_skip_status env st)
  · rw [if_neg hA]
    by_cases hB : (env.pathExtension && !env.metadataHttp && env.pathExists) = true
    · rw [if_pos hB]
      exact Or.inl (handle_skip_status env st)
    · rw [if_neg hB]
      rcases hd : DownloadJob.download env url with ⟨dok, dtr, dexc⟩
      dsimp only
      cases dexc with
      | some e => exact Or.inl rfl
      | none =>
        cases dok
        · rw [if_neg (show ¬(false = true) by simp)]
          rcases hf : DownloadJob.tryFallback env
              (if env.fallback then kw.fallback else []) with ⟨fok, ftr, fexc⟩
          dsimp only
          cases fexc with
          | some e => exact Or.inl rfl
          | none =>
            cases fok
            · rw [if_neg (show ¬(false = true) by simp)]
              exact Or.inr rfl
            · rw [if_pos rfl]
              exact Or.inl (handle_url_done_status env st _)
        · rw [if_pos rfl]
          exact Or.inl (handle_url_done_status env st _)

/-- `Job.run` never clears a status bit of the status accumulated before
the exception handlers run. -/
theorem run_status_mono (s : Nat) (e : Option Exc) (m : Bool) (i : Nat)
    (hbit : s.testBit i = true) : (Job.run s e m).status.testBit i = true := by
  rcases e with _ | exc
  · simpa [Job.run] using hbit
  · cases exc <;> simp [Job.run, Nat.testBit_lor, hbit]

/-- The retry loop of `handle_queue` never clears a parent status bit. -/
theorem queueLoop_pStatus_mono (ps : Bool) (spec : Nat → ChildRunSpec) :
    ∀ (fuel i : Nat) (q : QState) (r : QState),
      DownloadJob.queueLoop ps spec fuel i q = some r →
      ∀ j, q.pStatus.testBit j = true → r.pStatus.testBit j = true := by
  intro fuel
  induction fuel with
  | zero =>
    intro i q r h
    simp [DownloadJob.queueLoop] at h
  | succ f ih =>
    intro i q r h j hbit
    unfold DownloadJob.queueLoop at h
    dsimp only at h
    split at h
    · exact ih (i + 1) _ r h j hbit
    · obtain rfl := Option.some.inj h
      simp [Nat.testBit_lor, hbit]

/-- `runT t s` is the starting status OR-ed with the bits the tree itself
produces — the status accumulator only ever grows. -/
theorem runT_eq (t : JobT) : ∀ s : Nat, runT t s = s ||| runT t 0 := by
  induction t with
  | nil => intro s; simp [runT]
  | own b r ihr =>
    intro s
    show runT r (s ||| b) = s ||| runT r (0 ||| b)
    rw [ihr (s ||| b), ihr (0 ||| b), Nat.zero_or, Nat.lor_assoc]
  | child c r ihc ihr =>
    intro s
    show runT r (s ||| runT c 0) = s ||| runT r (0 ||| runT c 0)
    rw [ihr (s ||| runT c 0), ihr (0 ||| runT c 0), Nat.zero_or, Nat.lor_assoc]

/-- Bits of `runT t s` are exactly the bits of the starting status `s`
together with the bits the tree itself produces. -/
theorem runT_testBit (t : JobT) (s i : Nat) :
    ((runT t s).testBit i = true ↔
      (s.testBit i = true ∨ (runT t 0).testBit i = true)) := by
  rw [runT_eq t s, Nat.testBit_lor]
  simp

/-- Every status bit of a descendant job's returned status appears in
every ancestor's returned status. -/
theorem subJobs_runT : ∀ (t d : JobT), d ∈ subJobs t →
    ∀ (s i : Nat), (runT d 0).testBit i = true → (runT t s).testBit i = true := by
  intro t
  induction t with
  | nil => intro d hd; simp [subJobs] at hd
  | own b r ihr =>
    intro d hd s i hbit
    simp only [subJobs] at hd
    exact ihr d hd (s ||| b) i hbit
  | child c r ihc ihr =>
    intro d hd s i hbit
    simp only [subJobs, List.mem_append, List.mem_cons] at hd
    rcases hd with (rfl | hd) | hd
    · exact (runT_testBit r (s ||| runT d 0) i).2
        (Or.inl (by simp [Nat.testBit_lor, hbit]))
    · have hc : (runT c 0).testBit i = true := ihc d hd 0 i hbit
      exact (runT_testBit r (s ||| runT c 0) i).2
        (Or.inl (by simp [Nat.testBit_lor, hc]))
    · exact ihr d hd (s ||| runT c 0) i hbit

/-- Claim C7: status accumulation is monotone OR-accumulation — no handler
clears a status bit, a completing child run ORs its status into the
parent, and a "download failed" bit set anywhere in the job tree appears
in the returned status of every ancestor. -/
theorem status_or_accumulation :
    (∀ (env : Env) (st : JS) (url : Url) (kw : Kwdict) (i : Nat),
      st.status.testBit i = true →
      (DownloadJob.handle_url env st url kw).st.status.testBit i = true) ∧
    (∀ (env : Env) (st : JS) (i : Nat), st.status.testBit i = true →
      (DownloadJob.handle_skip env st).st.status.testBit i = true) ∧
    (∀ (s : Nat) (e : Option Exc) (m : Bool) (i : Nat), s.testBit i = true →
      (Job.run s e m).status.testBit i = true) ∧
    (∀ (ps : Bool) (spec : Nat → ChildRunSpec) (fuel i : Nat) (q r : QState),
      DownloadJob.queueLoop ps spec fuel i q = some r →
      ∀ j, q.pStatus.testBit j = true → r.pStatus.testBit j = true) ∧
    (∀ (t d : JobT), d ∈ subJobs t →
      ∀ (s i : Nat), (runT d 0).testBit i = true →
        (runT t s).testBit i = true) := by
  refine ⟨?_, ?_, run_status_mono, queueLoop_pStatus_mono, subJobs_runT⟩
  · intro env st url kw i hbit
    rcases handle_url_status_or env st url kw with h | h <;>
      simp [h, Nat.testBit_lor, hbit]
  · intro env st i hbit
    simpa [handle_skip_status] using hbit

/-- Witness for `status_or_accumulation` at concrete inputs: a child tree
returning bit 4 propagates it into its parent's returned status. -/
theorem status_or_accumulation_witness :
    (DownloadJob.handle_url envBase ⟨4, 0⟩ "u" ⟨[]⟩).st.status.testBit 2 = true ∧
    (DownloadJob.handle_skip envBase ⟨4, 0⟩).st.status.testBit 2 = true ∧
    (Job.run 4 (some (Exc.exceptionOther "ValueError")) true).status.testBit 2 = true ∧
    (∀ j, (⟨4, 0, 0, 0⟩ : QState).pStatus.testBit j = true →
      (⟨4, 0, 4, 0⟩ : QState).pStatus.testBit j = true) ∧
    (runT (JobT.child (JobT.own 4 JobT.nil) JobT.nil) 0).testBit 2 = true :=
  ⟨status_or_accumulation.1 envBase ⟨4, 0⟩ "u" ⟨[]⟩ 2 (by decide),
   status_or_accumulation.2.1 envBase ⟨4, 0⟩ 2 (by decide),
   status_or_accumulation.2.2.1 4 (some (Exc.exceptionOther "ValueError")) true 2
     (by decide),
   status_or_accumulation.2.2.2.1 false specRestartOnce 3 0 ⟨4, 0, 0, 0⟩ ⟨4, 0, 4, 0⟩
     rfl,
   status_or_accumulation.2.2.2.2 (JobT.child (JobT.own 4 JobT.nil) JobT.nil)
     (JobT.own 4 JobT.nil) (by simp [subJobs]) 0 2 (by decide)⟩

/-! ### Claim C8 -/

/-- Full characterisation of `handle_skip` under a configured skip
exception class. -/
theorem handle_skip_eq (env : Env) (st : JS) (k : SkipExcKind)
    (hcfg : env.skipExcCfg = some k) :
    DownloadJob.handle_skip env st =
      ⟨⟨st.status, st.skipcnt + 1⟩,
        Event.outSkip :: (if env.hasSkipHook then [Event.skipHook] else []),
        if ((st.skipcnt + 1 : Nat) : Int) ≥ env.skipMax then some k.raise
        else none⟩ := by
  unfold DownloadJob.handle_skip
  rw [hcfg]
  dsimp only
  split <;> rfl

theorem handle_skip_cnt (env : Env) (st : JS) (k : SkipExcKind)
    (hcfg : env.skipExcCfg = some k) :
    (DownloadJob.handle_skip env st).st.skipcnt = st.skipcnt + 1 := by
  rw [handle_skip_eq env st k hcfg]

theorem skipIter_below (env : Env) (N : Nat)
    (hcfg : env.skipExcCfg = some SkipExcKind.stop)
    (hmax : env.skipMax = (N : Int)) (st : JS) (h0 : st.skipcnt = 0) :
    ∀ j, j < N → (skipIter env st j).exc = none ∧
      (skipIter env st j).st.skipcnt = j := by
  intro j
  induction j with
  | zero => intro hj; exact ⟨rfl, h0⟩
  | succ j ihj =>
    intro hj
    obtain ⟨hexc, hcnt⟩ := ihj (by omega)
    unfold skipIter
    simp only [hexc]
    rw [handle_skip_eq env _ SkipExcKind.stop hcfg]
    dsimp only
    rw [hcnt, hmax]
    rw [if_neg (by omega)]
    exact ⟨rfl, rfl⟩

theorem handle_url_done_success (env : Env) (st : JS) (tr : List Event)
    (htemp : env.temppath = true) :
    (DownloadJob.handle_url_done env st tr).st.skipcnt = 0 ∧
    Event.outSuccess ∈ (DownloadJob.handle_url_done env st tr).trace := by
  unfold DownloadJob.handle_url_done
  rw [htemp]
  simp only [Bool.not_true, Bool.false_eq_true, if_false]
  constructor
  · trivial
  · simp

/-- Claim C8: under skip policy `abort:N` (with `N ≥ 1`), the
consecutive-skip counter increments once per skipped item, the first
`N - 1` consecutive skips raise nothing, the `N`-th consecutive skip
raises the abort control signal (`StopExtraction`), and a successful
download resets the counter to zero. -/
theorem skip_abort_policy :
    (∀ (env : Env) (st : JS) (k : SkipExcKind), env.skipExcCfg = some k →
      (DownloadJob.handle_skip env st).st.skipcnt = st.skipcnt + 1) ∧
    (∀ (env : Env) (N : Nat), env.skipExcCfg = some SkipExcKind.stop →
      env.skipMax = (N : Int) → 1 ≤ N → ∀ (st : JS), st.skipcnt = 0 →
      (∀ j, j < N → (skipIter env st j).exc = none ∧
        (skipIter env st j).st.skipcnt = j) ∧
      (skipIter env st N).exc = some SkipExcKind.stop.raise) ∧
    (∀ (env : Env) (st : JS) (url : Url) (kw : Kwdict),
      (env.archive && env.archiveCheck) = false →
      (env.pathExtension && !env.metadataHttp && env.pathExists) = false →
      (DownloadJob.download env url).ok = true →
      (DownloadJob.download env url).exc = none →
      env.temppath = true →
      (DownloadJob.handle_url env st url kw).st.skipcnt = 0 ∧
      Event.outSuccess ∈ (DownloadJob.handle_url env st url kw).trace) := by
  refine ⟨handle_skip_cnt, ?_, ?_⟩
  · intro env N hcfg hmax hN st h0
    refine ⟨skipIter_below env N hcfg hmax st h0, ?_⟩
    obtain ⟨M, rfl⟩ : ∃ M, N = M + 1 := ⟨N - 1, by omega⟩
    obtain ⟨hexc, hcnt⟩ := skipIter_below env (M + 1) hcfg hmax st h0 M (by omega)
    unfold skipIter
    simp only [hexc]
    rw [handle_skip_eq env _ SkipExcKind.stop hcfg]
    dsimp only
    rw [hcnt, hmax]
    rw [if_pos (by omega)]
  · intro env st url kw hA hB hok hexc htemp
    have hex : ∃ tr, DownloadJob.handle_url env st url kw =
        DownloadJob.handle_url_done env st tr := by
      unfold DownloadJob.handle_url
      rw [if_neg (show ¬((env.archive && env.archiveCheck) = true) by simp [hA])]
      rw [if_neg (show
        ¬((env.pathExtension && !env.metadataHttp && env.pathExists) = true) by
          simp [hB])]
      rcases hd : DownloadJob.download env url with ⟨dok, dtr, dexc⟩
      rw [hd] at hok hexc
      dsimp only at hok hexc
      subst hok
      subst hexc
      dsimp only
      rw [if_pos rfl]
      exact ⟨_, rfl⟩
    obtain ⟨tr, heq⟩ := hex
    rw [heq]
    exact handle_url_done_success env st tr htemp

/-- Witness for `skip_abort_policy` at concrete inputs: policy `abort:3`
starting from a zero counter, and a successful download resetting a
counter of 2. -/
theorem skip_abort_policy_witness :
    (DownloadJob.handle_skip envAbort3 ⟨0, 1⟩).st.skipcnt = 1 + 1 ∧
    ((∀ j, j < 3 → (skipIter envAbort3 ⟨0, 0⟩ j).exc = none ∧
        (skipIter envAbort3 ⟨0, 0⟩ j).st.skipcnt = j) ∧
      (skipIter envAbort3 ⟨0, 0⟩ 3).exc = some SkipExcKind.stop.raise) ∧
    ((DownloadJob.handle_url envDlOk ⟨0, 2⟩ "u" ⟨[]⟩).st.skipcnt = 0 ∧
      Event.outSuccess ∈ (DownloadJob.handle_url envDlOk ⟨0, 2⟩ "u" ⟨[]⟩).trace) :=
  ⟨skip_abort_policy.1 envAbort3 ⟨0, 1⟩ SkipExcKind.stop rfl,
   skip_abort_policy.2.1 envAbort3 3 rfl rfl (by omega) ⟨0, 0⟩ rfl,
   skip_abort_policy.2.2 envDlOk ⟨0, 2⟩ "u" ⟨[]⟩ rfl rfl rfl rfl rfl⟩

end GalleryDL
